import Mathlib

/-!
Shallow embedding of the cruzalex-themes TUI core
(src/tools/cruzalex-themes/src/app.rs and theme.rs): theme registry,
filtering/sorting, selection navigation, preview-resolution dispatch and
background-task reconciliation.

Effects are made explicit: the filesystem scan of the themes directory and
the cache-file existence test are parameters, and background tasks handed to
the async runtime are returned as an explicit dispatch list instead of being
spawned.
-/

/-- Filesystem paths (Rust PathBuf), modelled as their component list; join
appends one component. -/
abbrev PathBuf := List String

/-- Decoded terminal image handle (ratatui-image StatefulProtocol). The app
never inspects it, only stores it, so it is modelled as an abstract id. -/
def StatefulProtocol := Nat

instance : DecidableEq StatefulProtocol := fun a b => Nat.decEq a b

/-- theme.rs ThemeStatus. -/
inductive ThemeStatus where
  | active
  | installed
  | available
deriving DecidableEq

/-- app.rs FilterMode. -/
inductive FilterMode where
  | all
  | installed
  | available
  | favorites
deriving DecidableEq

/-- FilterMode::next, the cycling order of the filter key. -/
def FilterMode.next : FilterMode → FilterMode
  | .all => .installed
  | .installed => .available
  | .available => .favorites
  | .favorites => .all

/-- app.rs SortMode. -/
inductive SortMode where
  | name
  | stars
deriving DecidableEq

/-- SortMode::next. -/
def SortMode.next : SortMode → SortMode
  | .name => .stars
  | .stars => .name

/-- theme.rs Theme. The colors field only records presence of a parsed
palette; its contents are never read by the operations modelled here. -/
structure Theme where
  name : String
  display_name : String
  status : ThemeStatus
  local_path : Option PathBuf
  remote_url : Option String
  preview_path : Option PathBuf
  preview_url : Option String
  colors : Option Unit
  is_light : Bool
  background_count : Nat
  author : Option String
  stars : Option Nat
deriving DecidableEq

instance : Inhabited Theme :=
  ⟨{ name := "", display_name := "", status := .available, local_path := none,
     remote_url := none, preview_path := none, preview_url := none,
     colors := none, is_light := false, background_count := 0,
     author := none, stars := none }⟩

/-- app.rs TaskResult, the completion messages posted by background tasks. -/
inductive TaskResult where
  | installComplete (theme_name : String) (res : Except String Unit)
  | imageLoaded (path : PathBuf) (res : Except String StatefulProtocol)
  | previewDownloaded (theme_name : String) (res : Except String PathBuf)
  | starsFetched (stars_map : List (String × Nat))

/-- A background operation handed to tokio::spawn by the app; the model
returns dispatches explicitly instead of spawning them. -/
inductive Dispatch where
  | imageLoad (path : PathBuf)
  | previewDownload (url : String) (theme_name : String)
deriving DecidableEq

/-- app.rs App, restricted to the state the core operations read or write.
The ratatui ListState is reduced to its selected index, the favorites
HashSet to a membership list, and the image Picker to a presence flag. -/
structure App where
  themes : List Theme
  filtered_themes : List Nat
  list_state : Option Nat
  filter_mode : FilterMode
  sort_mode : SortMode
  search_query : String
  searching : Bool
  show_preview : Bool
  status_message : Option String
  themes_dir : PathBuf
  cache_dir : PathBuf
  current_theme : Option String
  loading : Bool
  favorites : List String
  image_picker : Option Unit
  current_preview_image : Option StatefulProtocol
  current_preview_path : Option PathBuf
  image_loading : Bool
deriving DecidableEq

/-- Rust str::contains as a substring test on the character sequence. -/
def containsSubstring (hay needle : String) : Bool :=
  decide (needle.data <:+: hay.data)

/-- Rust str::to_lowercase, modelled per character on the ASCII range (the
theme names and search queries the repository deals in are ASCII). -/
def toLowerStr (s : String) : String :=
  String.mk (s.data.map Char.toLower)

/-- Lexicographic comparison of character sequences by code point; UTF-8 byte
order (Rust String Ord) coincides with code-point order. -/
def charListLe : List Char → List Char → Bool
  | [], _ => true
  | _ :: _, [] => false
  | a :: as, b :: bs =>
    if a.toNat < b.toNat then true
    else if b.toNat < a.toNat then false
    else charListLe as bs

/-- Rust String ordering (str::cmp is not Greater). -/
def strLe (a b : String) : Bool :=
  charListLe a.data b.data

/-- The filter predicate inside App::update_filter: lifecycle-mode match AND
case-insensitive substring search over name and display name (an empty
search query matches everything). -/
def themeMatches (filter_mode : FilterMode) (favorites : List String)
    (search_query : String) (theme : Theme) : Bool :=
  let mode_match :=
    match filter_mode with
    | .all => true
    | .installed => theme.status == .active || theme.status == .installed
    | .available => theme.status == .available
    | .favorites => favorites.contains theme.name
  let search_match :=
    if search_query.isEmpty then true
    else
      containsSubstring (toLowerStr theme.name) (toLowerStr search_query)
        || containsSubstring (toLowerStr theme.display_name) (toLowerStr search_query)
  mode_match && search_match

/-- Stable insertion into a sorted list: the inserted element goes before the
first element it compares le to, so an earlier original element stays before
later elements that compare equal. -/
def orderedInsert (le : α → α → Bool) (a : α) : List α → List α
  | [] => [a]
  | b :: bs => if le a b then a :: b :: bs else b :: orderedInsert le a bs

/-- Stable sort modelling Rust slice::sort_by (a stable sort): for the
total-preorder comparators used by the app both produce the unique sorted
permutation that keeps equal elements in original order. -/
def stableSort (le : α → α → Bool) : List α → List α
  | [] => []
  | a :: as => orderedInsert le a (stableSort le as)

/-- Comparator for SortMode::Name (sort_by on name); an element precedes
another when the comparison result is not Greater. -/
def nameLe (a b : Theme) : Bool :=
  strLe a.name b.name

/-- Comparator for SortMode::Stars: stars descending (missing treated as 0),
name ascending as tie-break. -/
def starsLe (a b : Theme) : Bool :=
  let stars_a := a.stars.getD 0
  let stars_b := b.stars.getD 0
  decide (stars_b < stars_a) || (stars_b == stars_a && strLe a.name b.name)

/-- The comparator selected by the current sort mode in App::update_filter. -/
def themeLe : SortMode → Theme → Theme → Bool
  | .name => nameLe
  | .stars => starsLe

/-- The visible index list computed by App::update_filter: positions of the
themes passing the filter, stably sorted by the current sort mode. -/
def App.computeFiltered (s : App) : List Nat :=
  let filtered := (s.themes.enum.filter
    (fun p => themeMatches s.filter_mode s.favorites s.search_query p.2)).map (·.1)
  stableSort
    (fun a b => themeLe s.sort_mode (s.themes.getD a default) (s.themes.getD b default))
    filtered

/-- App::update_filter: recompute the visible list, then reset the selection
if out of bounds — App::selected treats no selection as position 0; a
position at or past the end is clamped to the last index, or cleared when
the new list is empty. -/
def App.update_filter (s : App) : App :=
  let filtered := s.computeFiltered
  let selected := s.list_state.getD 0
  let new_state :=
    if selected ≥ filtered.length then
      if filtered.isEmpty then none else some (filtered.length - 1)
    else s.list_state
  { s with filtered_themes := filtered, list_state := new_state }

/-- App::selected_theme. -/
def App.selected_theme (s : App) : Option Theme :=
  (s.list_state.bind (fun i => s.filtered_themes.get? i)).bind
    (fun idx => s.themes.get? idx)

/-- App::load_selected_preview. The cache-file existence test is the
parameter fs_exists; spawned decode/download tasks appear as dispatches. -/
def App.load_selected_preview (fs_exists : PathBuf → Bool) (s : App) :
    App × List Dispatch :=
  match s.selected_theme with
  | none =>
    ({ s with current_preview_image := none, current_preview_path := none }, [])
  | some theme =>
    let theme_name := theme.name
    let preview_url := theme.preview_url
    match theme.preview_path with
    | some preview_path =>
      if s.current_preview_path == some preview_path then (s, [])
      else
        match s.image_picker with
        | none => (s, [])
        | some _ =>
          ({ s with current_preview_path := some preview_path,
                    current_preview_image := none,
                    image_loading := true },
           [.imageLoad preview_path])
    | none =>
      match preview_url with
      | some url =>
        let cached_path := s.cache_dir ++ [theme_name ++ ".png"]
        if fs_exists cached_path then
          match s.image_picker with
          | none => (s, [])
          | some _ =>
            ({ s with current_preview_path := some cached_path,
                      current_preview_image := none,
                      image_loading := true },
             [.imageLoad cached_path])
        else
          ({ s with current_preview_image := none,
                    current_preview_path := none,
                    image_loading := true },
           [.previewDownload url theme_name])
      | none =>
        ({ s with current_preview_image := none, current_preview_path := none }, [])

/-- App::next: wrap forward by one, then re-resolve the preview. -/
def App.next (fs_exists : PathBuf → Bool) (s : App) : App × List Dispatch :=
  if s.filtered_themes.isEmpty then (s, [])
  else
    let i :=
      match s.list_state with
      | some i => if i ≥ s.filtered_themes.length - 1 then 0 else i + 1
      | none => 0
    App.load_selected_preview fs_exists { s with list_state := some i }

/-- App::previous: wrap backward by one, then re-resolve the preview. -/
def App.previous (fs_exists : PathBuf → Bool) (s : App) : App × List Dispatch :=
  if s.filtered_themes.isEmpty then (s, [])
  else
    let i :=
      match s.list_state with
      | some i => if i == 0 then s.filtered_themes.length - 1 else i - 1
      | none => 0
    App.load_selected_preview fs_exists { s with list_state := some i }

/-- App::next_page: jump forward by 10, saturating at the last index. -/
def App.next_page (fs_exists : PathBuf → Bool) (s : App) : App × List Dispatch :=
  if s.filtered_themes.isEmpty then (s, [])
  else
    let page_size := 10
    let i := s.list_state.getD 0
    let new_i := min (i + page_size) (s.filtered_themes.length - 1)
    App.load_selected_preview fs_exists { s with list_state := some new_i }

/-- App::previous_page: jump backward by 10, saturating at 0. -/
def App.previous_page (fs_exists : PathBuf → Bool) (s : App) : App × List Dispatch :=
  if s.filtered_themes.isEmpty then (s, [])
  else
    let page_size := 10
    let i := s.list_state.getD 0
    let new_i := i - page_size
    App.load_selected_preview fs_exists { s with list_state := some new_i }

/-- App::first. -/
def App.first (fs_exists : PathBuf → Bool) (s : App) : App × List Dispatch :=
  if s.filtered_themes.isEmpty then (s, [])
  else App.load_selected_preview fs_exists { s with list_state := some 0 }

/-- App::last. -/
def App.last (fs_exists : PathBuf → Bool) (s : App) : App × List Dispatch :=
  if s.filtered_themes.isEmpty then (s, [])
  else
    App.load_selected_preview fs_exists
      { s with list_state := some (s.filtered_themes.length - 1) }

/-- Rust str::split at a one-character separator, on character sequences. -/
def splitOnChar (sep : Char) : List Char → List (List Char)
  | [] => [[]]
  | c :: rest =>
    match splitOnChar sep rest with
    | [] => if c = sep then [[], []] else [[c]]
    | w :: ws => if c = sep then [] :: w :: ws else (c :: w) :: ws

/-- theme.rs format_theme_name: capitalize one dash-separated word. -/
def capitalizeWord : List Char → List Char
  | [] => []
  | c :: cs => c.toUpper :: cs

/-- Rust Vec::join on word lists with a single-space separator. -/
def joinSpace : List (List Char) → List Char
  | [] => []
  | [w] => w
  | w :: ws => w ++ ' ' :: joinSpace ws

/-- theme.rs format_theme_name: split on dashes, capitalize each word, join
with spaces. -/
def formatThemeName (name : String) : String :=
  String.mk (joinSpace ((splitOnChar '-' name.data).map capitalizeWord))

/-- Per-directory data that Theme::from_local reads from the filesystem (the
directory name plus metadata derived from files inside it); supplied
explicitly because the embedding has no filesystem. -/
structure LocalDirInfo where
  name : String
  colors : Option Unit
  preview_path : Option PathBuf
  is_light : Bool
  background_count : Nat
deriving DecidableEq

/-- Theme::from_local: build an installed theme entry; it is Active exactly
when its directory name equals the recorded current theme. -/
def Theme.from_local (themes_dir : PathBuf) (current_theme : Option String)
    (info : LocalDirInfo) : Theme :=
  { name := info.name
    display_name := formatThemeName info.name
    status := if current_theme == some info.name then .active else .installed
    local_path := some (themes_dir ++ [info.name])
    remote_url := none
    preview_path := info.preview_path
    preview_url := none
    colors := info.colors
    is_light := info.is_light
    background_count := info.background_count
    author := none
    stars := none }

/-- theme.rs load_local_themes: scan the themes directory — abstracted as the
list of subdirectories that pass the config-file filter and parse without
error — build entries with Theme::from_local and sort them by name. -/
def load_local_themes (themes_dir : PathBuf) (current_theme : Option String)
    (dirs : List LocalDirInfo) : List Theme :=
  stableSort nameLe (dirs.map (Theme.from_local themes_dir current_theme))

/-- Rust str::trim_end_matches(".git"): strip every trailing ".git"; the fuel
bounds the number of strips and the sequence length always suffices. -/
def trimEndDotGitFuel : Nat → List Char → List Char
  | 0, cs => cs
  | n + 1, cs =>
    if ".git".data <:+ cs then
      trimEndDotGitFuel n (cs.take (cs.length - 4))
    else cs

/-- str::trim_end_matches(".git") at its natural fuel. -/
def trimEndDotGit (s : String) : List Char :=
  trimEndDotGitFuel s.length s.data

/-- Rust str::split at a multi-character separator: non-overlapping matches
scanned left to right; the fuel bounds the scan and the sequence length
always suffices. -/
def splitOnSeqFuel (sep : List Char) : Nat → List Char → List (List Char)
  | 0, cs => [cs]
  | n + 1, cs =>
    if sep <+: cs then [] :: splitOnSeqFuel sep n (cs.drop sep.length)
    else
      match cs with
      | [] => [[]]
      | c :: rest =>
        match splitOnSeqFuel sep n rest with
        | [] => [[c]]
        | w :: ws => (c :: w) :: ws

/-- theme.rs github_clone_url_to_preview_url: rewrite a GitHub clone URL to
the raw main-branch preview.png URL. -/
def githubCloneUrlToPreviewUrl (clone_url : String) : Option String :=
  let url := trimEndDotGit clone_url
  if decide ("github.com".data <:+: url) then
    let parts := splitOnSeqFuel "github.com/".data (url.length + 1) url
    if parts.length == 2 then
      some ("https://raw.githubusercontent.com/" ++ String.mk (parts.getD 1 [])
        ++ "/main/preview.png")
    else none
  else none

/-- Theme::from_remote: an available catalog entry known only by reference. -/
def Theme.from_remote (name url : String) (author : Option String) : Theme :=
  { name := name
    display_name := formatThemeName name
    status := .available
    local_path := none
    remote_url := some url
    preview_path := none
    preview_url := githubCloneUrlToPreviewUrl url
    colors := none
    is_light := containsSubstring name "light"
    background_count := 0
    author := author
    stars := none }

/-- Vec::iter_mut().find(p) followed by a mutation: rewrite the first
matching element, leave all others unchanged. -/
def updateFirstMatch (p : Theme → Bool) (f : Theme → Theme) :
    List Theme → List Theme
  | [] => []
  | t :: ts => if p t then f t :: ts else t :: updateFirstMatch p f ts

/-- App::refresh_remote_themes, success branch: append the fetched remote
entries whose names are not already installed or active, sort by name,
recompute the visible list, report the count, clear the loading flag. The
fetched catalog is a parameter (the source returns a static curated list;
the merge logic does not depend on its contents). -/
def App.refresh_remote_themes_ok (remote_themes : List Theme) (s : App) : App :=
  let installed_names :=
    (s.themes.filter (fun t => t.status == .active || t.status == .installed)).map
      (fun t => t.name)
  let themes :=
    s.themes ++ remote_themes.filter (fun r => !installed_names.contains r.name)
  let themes := stableSort nameLe themes
  let s' := App.update_filter { s with themes := themes }
  { s' with
    status_message := some ("Found " ++ toString themes.length ++ " themes"),
    loading := false }

/-- One iteration of the App::tick drain loop: reconcile a single completion
message. The theme-directory rescan triggered by a successful install is
abstracted by local_dirs, and re-dispatches triggered by a downloaded
preview are returned explicitly. -/
def App.tick_one (local_dirs : List LocalDirInfo) (fs_exists : PathBuf → Bool)
    (s : App) : TaskResult → App × List Dispatch
  | .installComplete theme_name res =>
    let s := { s with loading := false }
    match res with
    | .ok _ =>
      let s := { s with
        status_message := some ("Theme " ++ theme_name ++ " installed!") }
      let local_themes := load_local_themes s.themes_dir s.current_theme local_dirs
      let remote_themes := s.themes.filter
        (fun t => t.status == .available && t.name != theme_name)
      let themes := remote_themes.foldl
        (fun acc r => if acc.any (fun t => t.name == r.name) then acc else acc ++ [r])
        local_themes
      let themes := stableSort nameLe themes
      (App.update_filter { s with themes := themes }, [])
    | .error e =>
      ({ s with status_message := some ("Install failed: " ++ e) }, [])
  | .imageLoaded path res =>
    let s := { s with image_loading := false }
    if s.current_preview_path == some path then
      ({ s with current_preview_image := res.toOption }, [])
    else (s, [])
  | .previewDownloaded theme_name res =>
    match res with
    | .ok cached_path =>
      let s := { s with
        themes := updateFirstMatch (fun t => t.name == theme_name)
          (fun t => { t with preview_path := some cached_path }) s.themes }
      match s.selected_theme with
      | some sel =>
        if sel.name == theme_name then App.load_selected_preview fs_exists s
        else (s, [])
      | none => (s, [])
    | .error _ =>
      let s := { s with
        themes := updateFirstMatch (fun t => t.name == theme_name)
          (fun t => { t with preview_url := none }) s.themes }
      match s.selected_theme with
      | some sel =>
        if sel.name == theme_name then ({ s with image_loading := false }, [])
        else (s, [])
      | none => (s, [])
  | .starsFetched stars_map =>
    ({ s with themes := s.themes.map (fun t =>
        match stars_map.lookup t.name with
        | some v => { t with stars := some v }
        | none => t) }, [])

/-- Number of registry entries whose lifecycle state is Active. -/
def countActive (themes : List Theme) : Nat :=
  (themes.filter (fun t => t.status == .active)).length

/-! Concrete sample data used to instantiate hypotheses of the theorems
below on explicit inputs. -/

/-- A filesystem oracle with no cache files on disk. -/
def noCacheFs : PathBuf → Bool := fun _ => false

/-- A remote-only entry whose preview is known only by URL. -/
def sampleRemoteTheme : Theme :=
  { name := "alpha", display_name := "Alpha", status := .available,
    local_path := none, remote_url := some "https://github.com/x/alpha",
    preview_path := none,
    preview_url := some "https://raw.githubusercontent.com/x/alpha/main/preview.png",
    colors := none, is_light := false, background_count := 0,
    author := none, stars := none }

/-- An installed entry with neither a local preview file nor a preview URL. -/
def sampleBareTheme : Theme :=
  { name := "beta", display_name := "Beta", status := .installed,
    local_path := some ["themes", "beta"], remote_url := none,
    preview_path := none, preview_url := none,
    colors := none, is_light := false, background_count := 0,
    author := none, stars := none }

/-- An installed entry carrying a local preview image file. -/
def sampleLocalTheme : Theme :=
  { name := "gamma", display_name := "Gamma", status := .installed,
    local_path := some ["themes", "gamma"], remote_url := none,
    preview_path := some ["themes", "gamma", "preview.png"], preview_url := none,
    colors := none, is_light := false, background_count := 0,
    author := none, stars := none }

/-- Base application state: the remote-only entry is selected, no current
theme is recorded (startup without a current symlink). -/
def sampleApp : App :=
  { themes := [sampleRemoteTheme], filtered_themes := [0], list_state := some 0,
    filter_mode := .all, sort_mode := .name, search_query := "",
    searching := false, show_preview := true, status_message := none,
    themes_dir := ["themes"], cache_dir := ["cache"],
    current_theme := none, loading := false, favorites := [],
    image_picker := some (), current_preview_image := none,
    current_preview_path := none, image_loading := false }

/-- Sample state with a search query matching nothing and a stale selection. -/
def sampleAppZZ : App :=
  { sampleApp with search_query := "zz", list_state := some 5 }

/-- Sample state with the local-preview entry selected. -/
def sampleLocalApp : App :=
  { sampleApp with themes := [sampleLocalTheme] }

/-- Sample two-entry state for navigation, first position selected. -/
def sampleNavApp : App :=
  { sampleApp with
    themes := [sampleRemoteTheme, sampleBareTheme],
    filtered_themes := [0, 1], list_state := some 0 }

/-- The scan record of one installed theme directory named alpha. -/
def sampleDirAlpha : LocalDirInfo :=
  { name := "alpha", colors := some (), preview_path := none,
    is_light := false, background_count := 0 }

/-- Sample state that records alpha as the current theme. -/
def sampleInstallApp : App :=
  { sampleApp with current_theme := some "alpha" }

/-- Sample state whose selected entry has no preview path and no preview
URL left. -/
def sampleClearedApp : App :=
  { sampleApp with themes := [sampleBareTheme] }

/-- State with no entries at all (fresh start before any discovery). -/
def emptyApp : App :=
  { sampleApp with themes := [], filtered_themes := [], list_state := none }

/-- The first entry of the hardcoded awesome-omarchy catalog in theme.rs,
as fetch_github_themes returns it. -/
def awesomeHead : List Theme :=
  [Theme.from_remote "aetheria" "https://github.com/JJDizz1L/aetheria" (some "JJDizz1L")]

/-! Helper lemmas shared by the claim theorems. -/

theorem orderedInsert_perm (le : α → α → Bool) (a : α) (l : List α) :
    (orderedInsert le a l).Perm (a :: l) := by
  induction l with
  | nil => exact List.Perm.refl _
  | cons b bs ih =>
    by_cases h : le a b
    · simp [orderedInsert, h]
    · simp only [orderedInsert, h, if_false]
      exact ((ih.cons b).trans (List.Perm.swap a b bs))

theorem stableSort_perm (le : α → α → Bool) (l : List α) :
    (stableSort le l).Perm l := by
  induction l with
  | nil => exact List.Perm.refl _
  | cons a as ih =>
    exact (orderedInsert_perm le a (stableSort le as)).trans (ih.cons a)

theorem load_selected_preview_fst_list_state (fs_exists : PathBuf → Bool) (s : App) :
    (App.load_selected_preview fs_exists s).1.list_state = s.list_state := by
  unfold App.load_selected_preview
  rcases h : s.selected_theme with _ | t
  · rfl
  · rcases hp : t.preview_path with _ | p
    · rcases hu : t.preview_url with _ | u
      · simp [hp, hu]
      · by_cases hc : fs_exists (s.cache_dir ++ [t.name ++ ".png"])
        · rcases hpk : s.image_picker with _ | pk <;> simp [hp, hu, hc, hpk]
        · simp [hp, hu, hc]
    · by_cases ht : s.current_preview_path == some p
      · simp [hp, ht]
      · rcases hpk : s.image_picker with _ | pk <;> simp [hp, ht, hpk]

theorem update_filter_themes (s : App) :
    (App.update_filter s).themes = s.themes := rfl

/-- C1: staleness discard for decode results: reconciling an ImageLoaded
completion adopts the decoded image into the displayed preview exactly when
its path equals the currently tracked preview path; when the paths differ
the displayed preview image is left unchanged, so a completion for an entry
the user has navigated away from cannot clobber the current preview. -/
theorem imageLoaded_staleness_guard (local_dirs : List LocalDirInfo)
    (fs_exists : PathBuf → Bool) (s : App) (path : PathBuf)
    (res : Except String StatefulProtocol) :
    (App.tick_one local_dirs fs_exists s (.imageLoaded path res)).1.current_preview_image
      = if s.current_preview_path = some path then res.toOption
        else s.current_preview_image := by
  by_cases h : s.current_preview_path = some path <;>
    simp [App.tick_one, h]

/-- C9: every ImageLoaded completion clears the image-loading indicator,
even when its path differs from the currently tracked preview path. -/
theorem imageLoaded_clears_loading (local_dirs : List LocalDirInfo)
    (fs_exists : PathBuf → Bool) (s : App) (path : PathBuf)
    (res : Except String StatefulProtocol) :
    (App.tick_one local_dirs fs_exists s (.imageLoaded path res)).1.image_loading
      = false := by
  by_cases h : s.current_preview_path = some path <;>
    simp [App.tick_one, h]

/-- C7: filter/sort idempotence: recomputing the visible list twice with
unchanged inputs yields the same ordered index list as recomputing once. -/
theorem update_filter_idempotent (s : App) :
    (App.update_filter (App.update_filter s)).filtered_themes
      = (App.update_filter s).filtered_themes := rfl

theorem update_filter_filtered (s : App) :
    (App.update_filter s).filtered_themes = s.computeFiltered := rfl

theorem update_filter_state_eq (s : App) :
    (App.update_filter s).list_state =
      if s.list_state.getD 0 ≥ s.computeFiltered.length then
        (if s.computeFiltered.isEmpty then none
         else some (s.computeFiltered.length - 1))
      else s.list_state := rfl

/-- C5: selection clamping: after update_filter recomputes the visible list
of length N, a previously selected position at or past N becomes N - 1 when
N > 0 and is cleared when N = 0, while a selected position below N is left
unchanged. -/
theorem update_filter_clamps_selection (s : App) (k : Nat)
    (hsel : s.list_state = some k) :
    (k ≥ (App.update_filter s).filtered_themes.length →
      (App.update_filter s).list_state =
        if (App.update_filter s).filtered_themes.length = 0 then none
        else some ((App.update_filter s).filtered_themes.length - 1)) ∧
    (k < (App.update_filter s).filtered_themes.length →
      (App.update_filter s).list_state = some k) := by
  rw [update_filter_filtered, update_filter_state_eq, hsel]
  simp only [Option.getD_some]
  generalize s.computeFiltered = L
  constructor
  · intro h
    rw [if_pos h]
    cases L with
    | nil => simp
    | cons a t => simp
  · intro h
    rw [if_neg (by omega)]

theorem update_filter_clamps_selection_witness :
    5 ≥ (App.update_filter sampleAppZZ).filtered_themes.length ∧
    (App.update_filter sampleAppZZ).list_state = none := by
  have h := (update_filter_clamps_selection sampleAppZZ 5 rfl).1
  refine ⟨by decide, ?_⟩
  rw [h (by decide)]
  decide

theorem computeFiltered_eq_nil (s : App)
    (h : ∀ t ∈ s.themes,
      themeMatches s.filter_mode s.favorites s.search_query t = false) :
    s.computeFiltered = [] := by
  unfold App.computeFiltered
  have hfil : s.themes.enum.filter
      (fun p => themeMatches s.filter_mode s.favorites s.search_query p.2) = [] := by
    rw [List.filter_eq_nil_iff]
    rintro ⟨i, x⟩ hp
    obtain ⟨hi, hx⟩ := List.mem_enum hp
    have hxm : x ∈ s.themes := hx ▸ List.getElem_mem hi
    simp [h x hxm]
  rw [hfil]
  rfl

/-- C8: safe navigation on an empty visible list: when no registry entry
passes the filter and search predicate, update_filter recomputes an empty
visible list and clears the selection, and each navigation operation on the
resulting state is a no-op returning the state unchanged with no dispatch. -/
theorem empty_search_navigation_safe (s : App)
    (h : ∀ t ∈ s.themes,
      themeMatches s.filter_mode s.favorites s.search_query t = false) :
    (App.update_filter s).filtered_themes = [] ∧
    (App.update_filter s).list_state = none ∧
    ∀ fs_exists : PathBuf → Bool,
      App.next fs_exists (App.update_filter s) = (App.update_filter s, []) ∧
      App.previous fs_exists (App.update_filter s) = (App.update_filter s, []) ∧
      App.next_page fs_exists (App.update_filter s) = (App.update_filter s, []) ∧
      App.previous_page fs_exists (App.update_filter s) = (App.update_filter s, []) ∧
      App.first fs_exists (App.update_filter s) = (App.update_filter s, []) ∧
      App.last fs_exists (App.update_filter s) = (App.update_filter s, []) := by
  have hcf := computeFiltered_eq_nil s h
  have hf : (App.update_filter s).filtered_themes = [] := by
    rw [update_filter_filtered, hcf]
  have hl : (App.update_filter s).list_state = none := by
    rw [update_filter_state_eq, hcf]
    simp
  refine ⟨hf, hl, fun fs_exists => ?_⟩
  refine ⟨?_, ?_, ?_, ?_, ?_, ?_⟩ <;>
    simp [App.next, App.previous, App.next_page, App.previous_page,
      App.first, App.last, hf]

theorem empty_search_navigation_safe_witness :
    (App.update_filter sampleAppZZ).filtered_themes = [] ∧
    App.next noCacheFs (App.update_filter sampleAppZZ)
      = (App.update_filter sampleAppZZ, []) := by
  have h := empty_search_navigation_safe sampleAppZZ (by decide)
  exact ⟨h.1, (h.2.2 noCacheFs).1⟩

/-- C10: wrap-around navigation: on a visible list of length N with selected
position i < N, next maps i to 0 when i = N - 1 and to i + 1 otherwise,
previous maps 0 to N - 1 and i to i - 1 otherwise, and both results stay
within bounds. -/
theorem next_previous_wrap (fs_exists : PathBuf → Bool) (s : App) (i : Nat)
    (hsel : s.list_state = some i)
    (hlt : i < s.filtered_themes.length) :
    (App.next fs_exists s).1.list_state
        = some (if i = s.filtered_themes.length - 1 then 0 else i + 1) ∧
    (App.previous fs_exists s).1.list_state
        = some (if i = 0 then s.filtered_themes.length - 1 else i - 1) ∧
    (∀ j, (App.next fs_exists s).1.list_state = some j →
      j < s.filtered_themes.length) ∧
    (∀ j, (App.previous fs_exists s).1.list_state = some j →
      j < s.filtered_themes.length) := by
  have hpos : 0 < s.filtered_themes.length :=
    Nat.lt_of_le_of_lt (Nat.zero_le i) hlt
  have hE : s.filtered_themes.isEmpty = false := by
    cases hc : s.filtered_themes with
    | nil => rw [hc] at hpos; simp at hpos
    | cons a t => rfl
  have hnext : (App.next fs_exists s).1.list_state
      = some (if i ≥ s.filtered_themes.length - 1 then 0 else i + 1) := by
    rw [App.next]
    simp only [hE, Bool.false_eq_true, if_false, hsel]
    rw [load_selected_preview_fst_list_state]
  have hprev : (App.previous fs_exists s).1.list_state
      = some (if i == 0 then s.filtered_themes.length - 1 else i - 1) := by
    rw [App.previous]
    simp only [hE, Bool.false_eq_true, if_false, hsel]
    rw [load_selected_preview_fst_list_state]
  have hiff : (i ≥ s.filtered_themes.length - 1) ↔ (i = s.filtered_themes.length - 1) := by
    omega
  refine ⟨?_, ?_, ?_, ?_⟩
  · rw [hnext]
    by_cases hc : i = s.filtered_themes.length - 1
    · rw [if_pos (hiff.mpr hc), if_pos hc]
    · rw [if_neg (fun hh => hc (hiff.mp hh)), if_neg hc]
  · rw [hprev]
    by_cases hc : i = 0
    · simp [hc]
    · simp [hc]
  · intro j hj
    rw [hnext] at hj
    injection hj with hj
    by_cases hc : i ≥ s.filtered_themes.length - 1
    · rw [if_pos hc] at hj; omega
    · rw [if_neg hc] at hj; omega
  · intro j hj
    rw [hprev] at hj
    injection hj with hj
    by_cases hc : i = 0
    · simp [hc] at hj; omega
    · simp [hc] at hj; omega

theorem next_previous_wrap_witness :
    (App.next noCacheFs { sampleNavApp with list_state := some 1 }).1.list_state
      = some 0 ∧
    (App.previous noCacheFs sampleNavApp).1.list_state = some 1 := by
  have h1 := (next_previous_wrap noCacheFs
    { sampleNavApp with list_state := some 1 } 1 rfl (by decide)).1
  have h2 := (next_previous_wrap noCacheFs sampleNavApp 0 rfl (by decide)).2.1
  constructor
  · rw [h1]; decide
  · rw [h2]; decide

/-- C2 fails on the code as stated: with the remote-only entry selected and
no cache file on disk, a second call to load_selected_preview while the
first download is still unresolved dispatches a second download operation —
two dispatched operations in total instead of exactly one, because the
network-download branch (like the cached-decode branch) has no guard
against an outstanding request. -/
theorem preview_request_redispatch_counterexample :
    ((App.load_selected_preview noCacheFs sampleApp).2
      ++ (App.load_selected_preview noCacheFs
            (App.load_selected_preview noCacheFs sampleApp).1).2).length = 2 := by
  decide

/-- C2 amended: the at-most-one-in-flight guarantee holds only for the stage
keyed by a local preview path: when the selected entry has a local preview
path not yet tracked, the first request dispatches exactly one decode
operation and records the path as tracked, and a repeated request while
that operation is unresolved is a no-op with no dispatch; the cached-decode
and network-download stages lack this guard and re-dispatch on a repeated
request. -/
theorem local_preview_request_dedup (fs_exists : PathBuf → Bool) (s : App)
    (t : Theme) (p : PathBuf)
    (hsel : s.selected_theme = some t)
    (hp : t.preview_path = some p) :
    (s.current_preview_path = some p →
      App.load_selected_preview fs_exists s = (s, [])) ∧
    (s.current_preview_path ≠ some p → s.image_picker = some () →
      (App.load_selected_preview fs_exists s).1.current_preview_path = some p ∧
      (App.load_selected_preview fs_exists s).2 = [Dispatch.imageLoad p]) := by
  constructor
  · intro h
    simp only [App.load_selected_preview, hsel, hp]
    simp [h]
  · intro h hpk
    have hb : (s.current_preview_path == some p) = false := by
      simp [h]
    simp only [App.load_selected_preview, hsel, hp]
    simp [hb, hpk]

theorem local_preview_request_dedup_witness :
    (App.load_selected_preview noCacheFs sampleLocalApp).2
      = [Dispatch.imageLoad ["themes", "gamma", "preview.png"]] ∧
    App.load_selected_preview noCacheFs
        (App.load_selected_preview noCacheFs sampleLocalApp).1
      = ((App.load_selected_preview noCacheFs sampleLocalApp).1, []) := by
  have h1 := (local_preview_request_dedup noCacheFs sampleLocalApp
    sampleLocalTheme ["themes", "gamma", "preview.png"] rfl rfl).2
    (by decide) rfl
  have h2 := (local_preview_request_dedup noCacheFs
    (App.load_selected_preview noCacheFs sampleLocalApp).1
    sampleLocalTheme ["themes", "gamma", "preview.png"] (by decide) rfl).1
    (by decide)
  exact ⟨h1.2, h2⟩

theorem countActive_eq_countP (l : List Theme) :
    countActive l = l.countP (fun t => t.status == ThemeStatus.active) := by
  rw [countActive, List.countP_eq_length_filter]

theorem countActive_perm {l₁ l₂ : List Theme} (h : l₁.Perm l₂) :
    countActive l₁ = countActive l₂ := by
  rw [countActive_eq_countP, countActive_eq_countP]
  exact h.countP_eq _

theorem countActive_append (l₁ l₂ : List Theme) :
    countActive (l₁ ++ l₂) = countActive l₁ + countActive l₂ := by
  simp [countActive, List.filter_append]

theorem countActive_foldl_push (rs : List Theme) (init : List Theme)
    (h : ∀ r ∈ rs, r.status ≠ ThemeStatus.active) :
    countActive (rs.foldl (fun acc r =>
      if acc.any (fun t => t.name == r.name) then acc else acc ++ [r]) init)
      = countActive init := by
  induction rs generalizing init with
  | nil => rfl
  | cons r rs ih =>
    rw [List.foldl_cons]
    have hr : r.status ≠ ThemeStatus.active := h r (List.mem_cons_self r rs)
    have hrest : ∀ x ∈ rs, x.status ≠ ThemeStatus.active :=
      fun x hx => h x (List.mem_cons_of_mem r hx)
    by_cases hc : init.any (fun t => t.name == r.name)
    · rw [if_pos hc]
      exact ih init hrest
    · rw [if_neg hc, ih _ hrest, countActive_append]
      have hb : (r.status == ThemeStatus.active) = false := by
        simp [hr]
      have hz : countActive [r] = 0 := by
        simp [countActive, hb]
      omega

theorem countP_name_eq_one (dirs : List LocalDirInfo) (c : String)
    (hmem : c ∈ dirs.map (fun d => d.name))
    (hnd : (dirs.map (fun d => d.name)).Nodup) :
    dirs.countP (fun d => d.name == c) = 1 := by
  induction dirs with
  | nil => simp at hmem
  | cons d ds ih =>
    rw [List.map_cons] at hmem hnd
    rw [List.countP_cons]
    by_cases hd : d.name = c
    · have hnotin : c ∉ ds.map (fun x => x.name) := by
        rw [← hd]
        exact (List.nodup_cons.mp hnd).1
      have hz : ds.countP (fun x => x.name == c) = 0 := by
        rw [List.countP_eq_zero]
        intro x hx
        simp only [beq_iff_eq]
        intro hxc
        exact hnotin (hxc ▸ List.mem_map_of_mem (fun y => y.name) hx)
      simp [hz, hd]
    · have hmem2 : c ∈ ds.map (fun x => x.name) := by
        rcases List.mem_cons.mp hmem with h1 | h2
        · exact absurd h1.symm hd
        · exact h2
      have hds := ih hmem2 (List.nodup_cons.mp hnd).2
      simp [hds, hd]

theorem countActive_load_local (themes_dir : PathBuf) (c : String)
    (dirs : List LocalDirInfo)
    (hmem : c ∈ dirs.map (fun d => d.name))
    (hnd : (dirs.map (fun d => d.name)).Nodup) :
    countActive (load_local_themes themes_dir (some c) dirs) = 1 := by
  rw [load_local_themes, countActive_perm (stableSort_perm _ _),
    countActive_eq_countP, List.countP_map]
  have hfn : ((fun t => t.status == ThemeStatus.active)
      ∘ Theme.from_local themes_dir (some c)) = (fun d => d.name == c) := by
    funext d
    by_cases hd : c = d.name
    · simp [Theme.from_local, hd]
    · simp [Theme.from_local, hd, Ne.symm hd]
  rw [hfn]
  exact countP_name_eq_one dirs c hmem hnd

theorem tick_install_ok_themes (local_dirs : List LocalDirInfo)
    (fs_exists : PathBuf → Bool) (s : App) (theme_name : String) :
    (App.tick_one local_dirs fs_exists s
      (.installComplete theme_name (Except.ok ()))).1.themes
    = stableSort nameLe
        ((s.themes.filter (fun t => t.status == ThemeStatus.available
            && t.name != theme_name)).foldl
          (fun acc r => if acc.any (fun t => t.name == r.name) then acc
            else acc ++ [r])
          (load_local_themes s.themes_dir s.current_theme local_dirs)) := rfl

/-- C3 fails on the code as stated: reconciling a successful InstallComplete
while no current theme is recorded (a reachable startup state: no current
symlink exists) reloads every local entry as InstalledNotActive, leaving
zero Active entries instead of exactly one. -/
theorem install_reconcile_zero_active_counterexample :
    ¬ countActive ((App.tick_one [sampleDirAlpha] noCacheFs sampleApp
      (.installComplete "alpha" (Except.ok ()))).1.themes) = 1 := by
  decide

/-- C3 amended: after reconciling a successful InstallComplete the registry
has exactly one Active entry, provided a current theme is recorded and its
name is among the rescanned local theme directories (whose names are
distinct, as directory names are); with no recorded current theme the
rescan yields zero Active entries. -/
theorem install_reconcile_active_unique (local_dirs : List LocalDirInfo)
    (fs_exists : PathBuf → Bool) (s : App) (theme_name c : String)
    (hcur : s.current_theme = some c)
    (hmem : c ∈ local_dirs.map (fun d => d.name))
    (hnd : (local_dirs.map (fun d => d.name)).Nodup) :
    countActive ((App.tick_one local_dirs fs_exists s
      (.installComplete theme_name (Except.ok ()))).1.themes) = 1 := by
  rw [tick_install_ok_themes, countActive_perm (stableSort_perm _ _),
    countActive_foldl_push]
  · rw [hcur]
    exact countActive_load_local s.themes_dir c local_dirs hmem hnd
  · intro r hr
    rw [List.mem_filter] at hr
    intro hact
    have h2 := hr.2
    rw [hact] at h2
    simp at h2

theorem install_reconcile_active_unique_witness :
    sampleInstallApp.current_theme = some "alpha" ∧
    countActive ((App.tick_one [sampleDirAlpha] noCacheFs sampleInstallApp
      (.installComplete "alpha" (Except.ok ()))).1.themes) = 1 :=
  ⟨rfl, install_reconcile_active_unique [sampleDirAlpha] noCacheFs
    sampleInstallApp "alpha" "alpha" rfl (by decide) (by decide)⟩

theorem tick_previewDownloaded_err_themes (local_dirs : List LocalDirInfo)
    (fs_exists : PathBuf → Bool) (s : App) (n e : String) :
    (App.tick_one local_dirs fs_exists s
        (.previewDownloaded n (Except.error e))).1.themes
      = updateFirstMatch (fun t => t.name == n)
          (fun t => { t with preview_url := none }) s.themes := by
  simp only [App.tick_one]
  split
  · split
    · rfl
    · rfl
  · rfl

theorem updateFirstMatch_get_first (p : Theme → Bool) (f : Theme → Theme)
    (l : List Theme) (i : Nat) (t : Theme)
    (hi : l.get? i = some t) (hp : p t = true)
    (hfirst : ∀ j u, j < i → l.get? j = some u → p u = false) :
    (updateFirstMatch p f l).get? i = some (f t) := by
  induction l generalizing i with
  | nil => simp at hi
  | cons a as ih =>
    cases i with
    | zero =>
      rw [List.get?_cons_zero] at hi
      injection hi with hi
      subst hi
      simp only [updateFirstMatch, if_pos hp]
      rfl
    | succ i =>
      have ha : p a = false := hfirst 0 a (Nat.succ_pos i) rfl
      simp only [updateFirstMatch, ha, Bool.false_eq_true, if_false]
      rw [List.get?_cons_succ] at hi ⊢
      exact ih i hi (fun j u hj hu => hfirst (j + 1) u (Nat.succ_lt_succ hj) hu)

/-- C4: terminal preview failure suppresses retries: reconciling a
PreviewDownloaded failure for an entry clears that entry's remote preview
reference (the first entry matching by name — names are the unique keys),
and any subsequent selection of an entry left with no local preview path
and no preview URL makes load_selected_preview dispatch nothing, so no
further network fetch occurs regardless of the cache contents. -/
theorem preview_failure_suppresses_retry (local_dirs : List LocalDirInfo)
    (fs_exists : PathBuf → Bool) (s : App) (i : Nat) (t : Theme) (n e : String)
    (hi : s.themes.get? i = some t) (hname : t.name = n)
    (hfirst : ∀ j u, j < i → s.themes.get? j = some u → u.name ≠ n) :
    ((App.tick_one local_dirs fs_exists s
        (.previewDownloaded n (Except.error e))).1.themes.get? i
      = some { t with preview_url := none }) ∧
    ∀ (fs2 : PathBuf → Bool) (s2 : App) (t2 : Theme),
      s2.selected_theme = some t2 → t2.preview_path = none →
      t2.preview_url = none →
      (App.load_selected_preview fs2 s2).2 = [] := by
  constructor
  · rw [tick_previewDownloaded_err_themes]
    exact updateFirstMatch_get_first _ _ s.themes i t hi (by simp [hname])
      (fun j u hj hu => by simp [hfirst j u hj hu])
  · intro fs2 s2 t2 hsel hpp hpu
    simp only [App.load_selected_preview, hsel, hpp, hpu]

theorem preview_failure_suppresses_retry_witness :
    ((App.tick_one [] noCacheFs sampleApp
        (.previewDownloaded "alpha" (Except.error "not found"))).1.themes.get? 0
      = some { sampleRemoteTheme with preview_url := none }) ∧
    (App.load_selected_preview noCacheFs sampleClearedApp).2 = [] := by
  have h := preview_failure_suppresses_retry [] noCacheFs sampleApp 0
    sampleRemoteTheme "alpha" "not found" rfl rfl
    (fun j u hj _ => absurd hj (Nat.not_lt_zero j))
  exact ⟨h.1, h.2 noCacheFs sampleClearedApp sampleBareTheme rfl rfl rfl⟩

theorem refresh_ok_themes (R : List Theme) (s : App) :
    (App.refresh_remote_themes_ok R s).themes
      = stableSort nameLe (s.themes ++ R.filter (fun r =>
          !((s.themes.filter (fun t => t.status == ThemeStatus.active
              || t.status == ThemeStatus.installed)).map
            (fun t => t.name)).contains r.name)) := rfl

/-- C6 fails on the code as stated: a catalog-fetch reconciliation skips
only names that exist as installed or active, so fetching the same catalog
twice while a remote-only entry is still uninstalled duplicates its key:
after two fetches of the catalog's first entry starting from an empty
registry, two entries named aetheria coexist. -/
theorem refresh_duplicate_names_counterexample :
    ¬ ((App.refresh_remote_themes_ok awesomeHead
        (App.refresh_remote_themes_ok awesomeHead emptyApp)).themes.map
          (fun t => t.name)).Nodup := by
  decide

/-- C6 amended: a catalog-fetch reconciliation preserves key uniqueness
provided the fetched list has pairwise-distinct keys and every fetched key
already present in the registry belongs to an installed or active entry;
without that proviso the merge duplicates the key, since it skips only
installed or active names. -/
theorem refresh_preserves_unique_names (R : List Theme) (s : App)
    (hs : (s.themes.map (fun t => t.name)).Nodup)
    (hr : (R.map (fun t => t.name)).Nodup)
    (hshared : ∀ r ∈ R, ∀ t ∈ s.themes, t.name = r.name →
      t.status = ThemeStatus.active ∨ t.status = ThemeStatus.installed) :
    ((App.refresh_remote_themes_ok R s).themes.map (fun t => t.name)).Nodup := by
  rw [refresh_ok_themes]
  rw [List.Perm.nodup_iff ((stableSort_perm nameLe _).map (fun t => t.name))]
  rw [List.map_append]
  apply List.Nodup.append hs
  · exact List.Nodup.sublist ((List.filter_sublist R).map (fun t => t.name)) hr
  · rw [List.disjoint_left]
    intro x hx1 hx2
    rw [List.mem_map] at hx1 hx2
    obtain ⟨t, ht, htx⟩ := hx1
    obtain ⟨r, hrf, hrx⟩ := hx2
    rw [List.mem_filter] at hrf
    obtain ⟨hrR, hrp⟩ := hrf
    have hnames : t.name = r.name := by rw [htx, hrx]
    have hstat := hshared r hrR t ht hnames
    have hmem : r.name ∈ (s.themes.filter (fun t => t.status == ThemeStatus.active
        || t.status == ThemeStatus.installed)).map (fun t => t.name) := by
      rw [List.mem_map]
      refine ⟨t, List.mem_filter.mpr ⟨ht, ?_⟩, hnames⟩
      rcases hstat with h | h <;> simp [h]
    have hrp2 : r.name ∉ (s.themes.filter (fun t => t.status == ThemeStatus.active
        || t.status == ThemeStatus.installed)).map (fun t => t.name) := by
      simpa using hrp
    exact hrp2 hmem

theorem refresh_preserves_unique_names_witness :
    ((App.refresh_remote_themes_ok awesomeHead emptyApp).themes.map
      (fun t => t.name)).Nodup :=
  refresh_preserves_unique_names awesomeHead emptyApp (by decide) (by decide)
    (by decide)
